import Mathlib

/-!
A shallow embedding of the example-construction pipeline of `data_util.py`
(transcript parsing, word-pair generation, deduplication, out-of-vocabulary
filtering, window computation, dataset construction and batch collation),
together with theorems checking the specification's claims against it.

Modelling conventions:
* Python strings are modelled as their character sequences (`List Char`),
  so that every operation is computable by kernel reduction.
* The external sentencepiece vocabulary's `EncodeAsIds` is an opaque
  collaborator and is passed as a function parameter `encode`.
* Python's `int(float(s))` numeric-field parse is likewise passed as an
  opaque parameter `toNum : PyStr → Int` (its float internals are outside
  the pipeline logic under scrutiny; only which field it is applied to
  matters here).
* Machine integers are `Int`/`Nat`; none of the quantities involved
  overflow in Python (arbitrary-precision ints).
* Fallible code (Python exceptions) returns `Option`.
-/

/-- A Python string, modelled as its sequence of characters. -/
abbrev PyStr := List Char

/-- An utterance tuple as produced by `return_examples`:
`(tokens, is_target_speaker, onset, offset)`. -/
abbrev Utt := List Nat × Bool × Int × Int

/-- Python `str.lower` (character-wise lowercasing). -/
def pyLower (s : PyStr) : PyStr := s.map Char.toLower

/-- The whitespace characters stripped by Python `str.strip()`. -/
def pyIsSpace (c : Char) : Bool :=
  c == ' ' || c == '\t' || c == '\n' || c == '\r' || c == '\x0b' || c == '\x0c'

/-- Python `str.strip()`: drop leading and trailing whitespace. -/
def pyStrip (s : PyStr) : PyStr :=
  ((s.dropWhile pyIsSpace).reverse.dropWhile pyIsSpace).reverse

/-- Python `y.replace(quote, empty)`: replacing the one-character double-quote
substring by the empty string removes every double-quote character. -/
def stripQuotes (s : PyStr) : PyStr := s.filter (fun c => c != '"')

/-- The comprehension body in `return_examples`:
`z := y.lower().strip().replace(quote, empty)` kept only when `z not in ex_words`. -/
def cleanWord (ex_words : List PyStr) (y : PyStr) : Option PyStr :=
  let z := stripQuotes (pyStrip (pyLower y))
  if z ∈ ex_words then none else some z

/-- One line of `return_examples` (`data_util.py`, lines 52-61), after the line has
been split on the delimiter into its fields `x`.  The text fields are
`x[0:-4]`; the tuple built is
`(encode(joined_text), x[-1].strip() == "Speaker1", int(float(x[-4])), int(float(x[-3])))`,
and lines whose joined text is empty are filtered out.  A line with fewer
than 4 fields raises `IndexError` in Python; both that and the filtered-out
case are `none` here (no claim distinguishes them). -/
def processRev (encode : PyStr → List Nat) (toNum : PyStr → Int)
    (ex_words : List PyStr) : List PyStr → Option Utt
  | lastF :: _sndLast :: thirdLast :: fourthLast :: restRev =>
      let text := List.intercalate [' '] (restRev.reverse.filterMap (cleanWord ex_words))
      if text.length > 0 then
        some (encode text, pyStrip lastF == "Speaker1".data, toNum fourthLast, toNum thirdLast)
      else none
  | _ => none

/-- One line of `return_examples`, packaged over the original field order. -/
def processLine (encode : PyStr → List Nat) (toNum : PyStr → Int)
    (ex_words : List PyStr) (x : List PyStr) : Option Utt :=
  processRev encode toNum ex_words x.reverse

/-- `return_examples` (`data_util.py`, lines 50-62), applied to the list of
delimiter-split lines of the file. -/
def return_examples (encode : PyStr → List Nat) (toNum : PyStr → Int)
    (ex_words : List PyStr) (lines : List (List PyStr)) : List Utt :=
  lines.filterMap (processLine encode toNum ex_words)

/-- The body of the loop in `generate_wordpairs` (`data_util.py`, lines 71-80):
the examples appended for one adjacent pair `(first, second)`, in order. -/
def emitPair (first second : Utt) : List Utt :=
  (if first.2.1 && (first.1.length == 2) then [first] else []) ++
  (if second.2.1 && (second.1.length == 2) then [second] else []) ++
  (if first.2.1 && second.2.1 && (first.1.length == 1) && (second.1.length == 1)
      && decide (first.2.2.1 < second.2.2.1)
   then [(first.1 ++ second.1, true, first.2.2.1, second.2.2.2)] else [])

/-- `generate_wordpairs` (`data_util.py`, lines 65-81): iterate
`zip(examples, examples[1:])` and append the emissions of each window. -/
def generate_wordpairs (examples : List Utt) : List Utt :=
  (examples.zip examples.tail).flatMap (fun p => emitPair p.1 p.2)

/-- `remove_oovs` (`data_util.py`, lines 94-99); `vocabulary[chr(60)...]`,
the `<unk>` id, is passed as `unk`. -/
def remove_oovs (grams : List Utt) (unk : Nat) (data_tag : String) : List Utt :=
  if data_tag = "train" then grams.filter (fun x => !(x.1.contains unk))
  else grams.filter (fun x => !(x.1 == [unk, unk]))

/-- A word-pair row as `remove_duplicates` sees it: a token cell of a pandas
row may hold an id or `NaN` (a missing second word), modelled as `Option Nat`. -/
abbrev DRow := List (Option Nat) × Bool × Int × Int

/-- The decomposition of a row performed by
`df[list2] = pd.DataFrame(df[0].tolist())` in `remove_duplicates`: the first
and second token slot (`NaN`, i.e. `none`, when absent) together with the
remaining columns.  `drop_duplicates()` compares rows on exactly this data. -/
def rowKey (g : DRow) : (Option Nat × Option Nat) × Bool × Int × Int :=
  ((g.1.getD 0 none, g.1.getD 1 none), g.2)

/-- The reassembly `df[0] = df[fwsw].values.tolist()` in `remove_duplicates`:
the token field becomes the two-element list of the slots (a `NaN` slot stays
in the list). -/
def rebuildRow (k : (Option Nat × Option Nat) × Bool × Int × Int) : DRow :=
  ([k.1.1, k.1.2], k.2)

/-- Stable deduplication keeping first occurrences, with accumulator of the
values already seen: the semantics of pandas `drop_duplicates()`. -/
def dedupGo [DecidableEq α] (seen : List α) : List α → List α
  | [] => []
  | a :: l => if a ∈ seen then dedupGo seen l else a :: dedupGo (a :: seen) l

/-- Stable first-occurrence deduplication (pandas `drop_duplicates()`). -/
def dedupFirst [DecidableEq α] (l : List α) : List α := dedupGo [] l

/-- `remove_duplicates` (`data_util.py`, lines 84-91).  `none` models the
Python exceptions: an empty frame has no column `0`, and the two-column
assignment `df[fwsw] = pd.DataFrame(df[0].tolist())` fails unless the
expansion of the token lists has exactly two columns, i.e. unless every token
list has length at most 2 and some token list has length exactly 2. -/
def remove_duplicates (grams : List DRow) : Option (List DRow) :=
  if grams.isEmpty then none
  else if grams.all (fun g => decide (g.1.length ≤ 2)) && grams.any (fun g => g.1.length == 2)
  then some ((dedupFirst (grams.map rowKey)).map rebuildRow)
  else none

/-- The configuration read by `calculate_windows_params` (`param_dict`). -/
structure WParams where
  start_offset : Int
  end_offset : Int
  bin_fs : Int

/-- Exact integer ceiling division `⌈a / b⌉` (for positive `b`), the value of
Python `int(math.ceil(a / b))` whenever the float quotient is exact. -/
def ceilIntDiv (a b : Int) : Int := -(Int.fdiv (-a) b)

/-- `calculate_windows_params` (`data_util.py`, lines 118-126); the gram's
onset is `gram[2]`, its offset `gram[3]`. -/
def calculate_windows_params (gram : Utt) (p : WParams) : Int × Int × Int × Int :=
  let seq_length := gram.2.2.2 - gram.2.2.1
  let begin_window := gram.2.2.1 + p.start_offset
  let end_window := gram.2.2.2 + p.end_offset
  let bin_size := ceilIntDiv (end_window - begin_window) p.bin_fs
  (seq_length, begin_window, end_window, bin_size)

/-- `test_for_bad_window` (`data_util.py`, lines 108-115); `shape` is the
electrode matrix's shape, of which `shape[0]` (here `shape.1`) is the
time-dimension length. -/
def test_for_bad_window (start stop : Int) (shape : Int × Int) (window : Int) : Bool :=
  decide (start < 0) || decide (start > shape.1) || decide (stop < 0) ||
  decide (stop > shape.1) || decide (stop - start < window) || decide (stop - start < 0)

/-- The skip test of `Brain2enDataset.__init__` (`data_util.py`, line 150):
an index triple `(i, segment_length, label_length)` is kept when NOT
(`i[1] > 384 or i[2] < 4 or i[2] > 128`). -/
def passIdx (t : Nat × Nat × Nat) : Bool :=
  !(decide (t.2.1 > 384) || decide (t.2.2 < 4) || decide (t.2.2 > 128))

/-- The index list built by `Brain2enDataset.__init__` (line 141):
`(i, len(signals[i]), len(labels[i]))` for each position. -/
def mkIndices (signals : List (List Int)) (labels : List (List Nat)) : List (Nat × Nat × Nat) :=
  (List.range signals.length).map fun i =>
    (i, (signals.getD i []).length, (labels.getD i []).length)

/-- The sort order of `indices.sort(key=lambda x: (x[1], x[2], x[0]))`:
lexicographic on (segment length, label length, original index). -/
def idxLE (a b : Nat × Nat × Nat) : Prop :=
  a.2.1 < b.2.1 ∨ (a.2.1 = b.2.1 ∧ (a.2.2 < b.2.2 ∨ (a.2.2 = b.2.2 ∧ a.1 ≤ b.1)))

instance : DecidableRel idxLE := fun a b => by unfold idxLE; infer_instance

instance : IsTotal (Nat × Nat × Nat) idxLE := ⟨by intro a b; unfold idxLE; omega⟩

instance : IsTrans (Nat × Nat × Nat) idxLE := ⟨by intro a b c; unfold idxLE; omega⟩

/-- The sorted index list of `Brain2enDataset.__init__` (line 143).  Python's
sort is stable, but the key `(x[1], x[2], x[0])` contains the position `x[0]`,
so keys are pairwise distinct and any sorted rearrangement is the unique one;
insertion sort realises it. -/
def sortIndices (signals : List (List Int)) (labels : List (List Nat)) : List (Nat × Nat × Nat) :=
  (mkIndices signals labels).insertionSort idxLE

/-- The retained index triples: the loop of `Brain2enDataset.__init__`
(lines 149-159) walks the sorted indices and skips the failing ones. -/
def retainedIndices (signals : List (List Int)) (labels : List (List Nat)) : List (Nat × Nat × Nat) :=
  (sortIndices signals labels).filter passIdx

/-- `self.examples` of `Brain2enDataset`: the retained `(signal, label)`
pairs in retained order. -/
def datasetExamples (signals : List (List Int)) (labels : List (List Nat)) :
    List (List Int × List Nat) :=
  (retainedIndices signals labels).map fun t => (signals.getD t.1 [], labels.getD t.1 [])

/-- `Brain2enDataset.__len__` (`data_util.py`, lines 162-163). -/
def datasetLen (signals : List (List Int)) (labels : List (List Nat)) : Nat :=
  (datasetExamples signals labels).length

/-- `Brain2enDataset.__getitem__` (`data_util.py`, lines 165-166):
`self.examples[idx]` with Python list-indexing semantics — a negative index
is first shifted by the length, then an index outside `[0, len)` raises
`IndexError` (`none` here). -/
def getitem (signals : List (List Int)) (labels : List (List Nat)) (idx : Int) :
    Option (List Int × List Nat) :=
  let n : Int := datasetLen signals labels
  let j := if idx < 0 then idx + n else idx
  if 0 ≤ j ∧ j < n then (datasetExamples signals labels).get? j.toNat else none

/-- The maximum label length in a batch, the common length `pad_sequence`
pads the label rows to. -/
def maxLabelLen (rows : List (List Nat)) : Nat :=
  rows.foldr (fun r m => max r.length m) 0

/-- Right-pad one row to length `n` with the pad id. -/
def padRow (n : Nat) (pad : Nat) (r : List Nat) : List Nat :=
  r ++ List.replicate (n - r.length) pad

/-- `pad_sequence(labels, batch_first=True, padding_value=pad)` in
`MyCollator.__call__` (lines 180-182), restricted to the label rows. -/
def padLabels (pad : Nat) (rows : List (List Nat)) : List (List Nat) :=
  rows.map (padRow (maxLabelLen rows) pad)

/-- `trg_y = labels[:, 1:]` in `MyCollator.__call__` (line 186): the padded
labels with the first column dropped. -/
def trg_y (pad : Nat) (rows : List (List Nat)) : List (List Nat) :=
  (padLabels pad rows).map (fun r => r.drop 1)

/-- `pad_mask = labels == self.vocabulary[self.pad_token]` in
`MyCollator.masks` (line 197), applied to `trg_y`. -/
def pad_mask (pad : Nat) (rows : List (List Nat)) : List (List Bool) :=
  (trg_y pad rows).map (fun r => r.map (fun t => t == pad))

/-- A concrete encoder used to instantiate the opaque vocabulary in concrete
test inputs: each text is encoded as the one-token list of its length. -/
def encLen : PyStr → List Nat := fun s => [s.length]

/-- A concrete numeric-field parse used to instantiate the opaque
`int(float(s))` on decimal-digit strings. -/
def digitsToInt : PyStr → Int :=
  fun s => ((s.map (fun c => c.toNat - 48)).foldl (fun a d => 10 * a + d) 0 : Nat)

/-- A concrete word-pair list for exercising `remove_oovs`. -/
def gramsW : List Utt := [([1, 2], true, 0, 1), ([7, 7], true, 0, 1), ([7, 3], true, 0, 1)]

/-- C1 counterexample: on the delimiter-split line
`hi|1|2|3|Speaker1` the parser produces onset `1`, which is the
fourth-from-last field `1` parsed, not the third-from-last field `2` as the
claim states, and offset `2`, not the second-from-last field `3`. -/
theorem C1_counterexample :
    return_examples encLen digitsToInt []
        [["hi".data, "1".data, "2".data, "3".data, "Speaker1".data]]
      = [([2], true, 1, 2)] ∧
    digitsToInt "2".data = 2 ∧ digitsToInt "3".data = 3 ∧
    ¬((1 : Int) = 2 ∧ (2 : Int) = 3) := by decide

/-- C1 (amended): for every transcript line with at least 4 fields that
survives the text-filtering step, the parser produces an Utterance Tuple
whose onset is `int(float(fourth-from-last field))`, whose offset is
`int(float(third-from-last field))`, whose `is_target_speaker` is true
exactly when the whitespace-stripped last field equals `Speaker1`, and whose
tokens encode the joined filtered text fields. -/
theorem C1_parser_fields (encode : PyStr → List Nat) (toNum : PyStr → Int)
    (ex_words : List PyStr) (x : List PyStr) (t : Utt)
    (lastF sndLast thirdLast fourthLast : PyStr) (restRev : List PyStr)
    (hx : x.reverse = lastF :: sndLast :: thirdLast :: fourthLast :: restRev)
    (h : processLine encode toNum ex_words x = some t) :
    t.2.1 = (pyStrip lastF == "Speaker1".data) ∧
    t.2.2.1 = toNum fourthLast ∧ t.2.2.2 = toNum thirdLast ∧
    t.1 = encode (List.intercalate [' '] (restRev.reverse.filterMap (cleanWord ex_words))) := by
  unfold processLine at h
  rw [hx] at h
  simp only [processRev] at h
  split at h
  · have ht := Option.some.inj h
    subst ht
    exact ⟨rfl, rfl, rfl, rfl⟩
  · exact absurd h (by simp)

/-- Witness for C1: the amended field positions, instantiated on the concrete
line `hi|1|2|3|Speaker1`. -/
theorem C1_parser_fields_witness :
    (([2], true, 1, 2) : Utt).2.1 = (pyStrip "Speaker1".data == "Speaker1".data) ∧
    (([2], true, 1, 2) : Utt).2.2.1 = digitsToInt "1".data ∧
    (([2], true, 1, 2) : Utt).2.2.2 = digitsToInt "2".data ∧
    (([2], true, 1, 2) : Utt).1
      = encLen (List.intercalate [' ']
          ((["hi".data] : List PyStr).reverse.filterMap (cleanWord []))) :=
  C1_parser_fields encLen digitsToInt []
    ["hi".data, "1".data, "2".data, "3".data, "Speaker1".data] ([2], true, 1, 2)
    "Speaker1".data "3".data "2".data "1".data ["hi".data] (by decide) (by decide)

/-- C2 counterexample: at `begin_window = 0`, `end_window = 10`, `T = 5`,
`window = 1`, none of the claim's five conditions holds, yet the code reports
the window invalid (because `end_window > T`, which the code does check). -/
theorem C2_counterexample :
    test_for_bad_window 0 10 (5, 0) 1 = true ∧
    ¬((0 : Int) < 0 ∨ (0 : Int) > 5 ∨ (10 : Int) < 0 ∨
      (10 : Int) - 0 < 1 ∨ (10 : Int) - 0 < 0) := by decide

/-- C2 (amended): the validation predicate reports the window invalid exactly
when `begin_window < 0`, or `begin_window > T`, or `end_window < 0`, or
`end_window > T`, or `end_window - begin_window < window`, or
`end_window - begin_window < 0`; in particular `end_window > T` IS checked. -/
theorem C2_bad_window_iff (start stop window : Int) (shape : Int × Int) :
    test_for_bad_window start stop shape window = true ↔
      (start < 0 ∨ start > shape.1 ∨ stop < 0 ∨ stop > shape.1 ∨
       stop - start < window ∨ stop - start < 0) := by
  simp only [test_for_bad_window, Bool.or_eq_true, decide_eq_true_eq]
  tauto

/-- C3: for an adjacent pair where both utterances are target-speaker, both
have exactly one token, and the first's onset precedes the second's, the
window's emission is exactly the one merged example
`(first.tokens ++ second.tokens, true, first.onset, second.offset)`;
input sequences of length at most 1 generate no output; and the generator
decomposes window-by-window into these emissions. -/
theorem C3_merge_rule :
    (∀ first second : Utt, first.2.1 = true → second.2.1 = true →
      first.1.length = 1 → second.1.length = 1 → first.2.2.1 < second.2.2.1 →
      emitPair first second = [(first.1 ++ second.1, true, first.2.2.1, second.2.2.2)]) ∧
    (∀ examples : List Utt, examples.length ≤ 1 → generate_wordpairs examples = []) ∧
    (∀ a b : Utt, ∀ rest : List Utt,
      generate_wordpairs (a :: b :: rest) = emitPair a b ++ generate_wordpairs (b :: rest)) := by
  refine ⟨?_, ?_, ?_⟩
  · intro f s h1 h2 h3 h4 h5
    simp [emitPair, h1, h2, h3, h4, h5]
  · intro l h
    match l with
    | [] => rfl
    | [x] => rfl
    | a :: b :: t => simp at h
  · intro a b rest
    rfl

/-- Witness for C3: the merge rule on two concrete single-token
target-speaker utterances, and the empty output on a length-1 input. -/
theorem C3_merge_rule_witness :
    emitPair ([1], true, 0, 5) ([2], true, 6, 10) = [([1, 2], true, 0, 10)] ∧
    generate_wordpairs [([1], true, 0, 5)] = [] :=
  ⟨C3_merge_rule.1 ([1], true, 0, 5) ([2], true, 6, 10) rfl rfl rfl rfl (by decide),
   C3_merge_rule.2.1 [([1], true, 0, 5)] (by decide)⟩

/-- Every example a single window emits has exactly 2 tokens and the
target-speaker flag set. -/
theorem mem_emitPair {g first second : Utt} (h : g ∈ emitPair first second) :
    g.1.length = 2 ∧ g.2.1 = true := by
  unfold emitPair at h
  rcases List.mem_append.mp h with h1 | h2
  · rcases List.mem_append.mp h1 with ha | hb
    · split at ha
      case isTrue hc =>
        rcases List.mem_singleton.mp ha with rfl
        simp at hc
        exact ⟨hc.2, hc.1⟩
      case isFalse => simp at ha
    · split at hb
      case isTrue hc =>
        rcases List.mem_singleton.mp hb with rfl
        simp at hc
        exact ⟨hc.2, hc.1⟩
      case isFalse => simp at hb
  · split at h2
    case isTrue hc =>
      rcases List.mem_singleton.mp h2 with rfl
      simp only [Bool.and_eq_true, beq_iff_eq, decide_eq_true_eq] at hc
      obtain ⟨⟨⟨⟨hf, hs⟩, hl1⟩, hl2⟩, hlt⟩ := hc
      refine ⟨?_, rfl⟩
      simp [hl1, hl2]
    case isFalse => simp at h2

/-- C10: every example the Word-Pair Generator emits has a token sequence of
length exactly 2 and is marked target-speaker, for every input sequence. -/
theorem C10_generator_invariant (examples : List Utt) (g : Utt)
    (h : g ∈ generate_wordpairs examples) : g.1.length = 2 ∧ g.2.1 = true := by
  unfold generate_wordpairs at h
  rcases List.mem_flatMap.mp h with ⟨p, hp, hg⟩
  exact mem_emitPair hg

/-- Witness for C10: the invariant instantiated on a concrete generated
example. -/
theorem C10_generator_invariant_witness :
    (([1, 2], true, 0, 10) : Utt).1.length = 2 ∧ (([1, 2], true, 0, 10) : Utt).2.1 = true :=
  C10_generator_invariant [([1], true, 0, 5), ([2], true, 6, 10)] ([1, 2], true, 0, 10) (by decide)

/-- C4: with `data_tag = train` no returned example's token sequence contains
the unknown-token id at any position; with any other tag the filter removes
exactly the examples whose token sequence equals `[unk, unk]` and keeps all
others, in order. -/
theorem C4_oov_filter (grams : List Utt) (unk : Nat) :
    (∀ g ∈ remove_oovs grams unk "train", unk ∉ g.1) ∧
    (∀ data_tag : String, data_tag ≠ "train" →
      remove_oovs grams unk data_tag = grams.filter (fun x => !(x.1 == [unk, unk])) ∧
      (∀ g : Utt, g ∈ remove_oovs grams unk data_tag ↔ g ∈ grams ∧ g.1 ≠ [unk, unk])) := by
  constructor
  · intro g hg
    unfold remove_oovs at hg
    rw [if_pos rfl] at hg
    have hc := (List.mem_filter.mp hg).2
    simp at hc
    exact hc
  · intro tag htag
    unfold remove_oovs
    rw [if_neg htag]
    refine ⟨rfl, ?_⟩
    intro g
    simp [List.mem_filter]

/-- Witness for C4: under `train` the retained pair `[1, 2]` is free of the
unknown id `7`; under `eval` the partially-unknown pair `[7, 3]` is kept. -/
theorem C4_oov_filter_witness :
    ((7 : Nat) ∉ (([1, 2], true, 0, 1) : Utt).1) ∧
    ((([7, 3], true, 0, 1) : Utt) ∈ remove_oovs gramsW 7 "eval" ↔
      (([7, 3], true, 0, 1) : Utt) ∈ gramsW ∧ [7, 3] ≠ [7, 7]) :=
  ⟨(C4_oov_filter gramsW 7).1 ([1, 2], true, 0, 1) (by decide),
   ((C4_oov_filter gramsW 7).2 "eval" (by decide)).2 ([7, 3], true, 0, 1)⟩

/-- An element of a deduplicated list occurs in the input and not among the
already-seen values. -/
theorem dedupGo_mem [DecidableEq α] {a : α} :
    ∀ {l seen : List α}, a ∈ dedupGo seen l → a ∈ l ∧ a ∉ seen := by
  intro l
  induction l with
  | nil => intro seen h; simp [dedupGo] at h
  | cons b t ih =>
    intro seen h
    unfold dedupGo at h
    split at h
    · have hm := ih h
      exact ⟨List.mem_cons_of_mem _ hm.1, hm.2⟩
    case isFalse hb =>
      rcases List.mem_cons.mp h with rfl | h2
      · exact ⟨List.mem_cons_self _ _, hb⟩
      · have hm := ih h2
        exact ⟨List.mem_cons_of_mem _ hm.1, fun hs => hm.2 (List.mem_cons_of_mem _ hs)⟩

/-- Deduplication produces a duplicate-free list. -/
theorem dedupGo_nodup [DecidableEq α] : ∀ (l seen : List α), (dedupGo seen l).Nodup := by
  intro l
  induction l with
  | nil => intro seen; simp [dedupGo]
  | cons b t ih =>
    intro seen
    unfold dedupGo
    split
    · exact ih seen
    · refine List.nodup_cons.mpr ⟨?_, ih (b :: seen)⟩
      intro hmem
      exact (dedupGo_mem hmem).2 (List.mem_cons_self b seen)

/-- Deduplication fixes a duplicate-free list disjoint from the seen set. -/
theorem dedupGo_eq_self [DecidableEq α] :
    ∀ (l seen : List α), l.Nodup → (∀ a ∈ l, a ∉ seen) → dedupGo seen l = l := by
  intro l
  induction l with
  | nil => intro seen _ _; rfl
  | cons b t ih =>
    intro seen hnd hdis
    unfold dedupGo
    rw [if_neg (hdis b (List.mem_cons_self b t))]
    congr 1
    refine ih (b :: seen) (List.nodup_cons.mp hnd).2 ?_
    intro a ha hin
    rcases List.mem_cons.mp hin with rfl | hs
    · exact (List.nodup_cons.mp hnd).1 ha
    · exact hdis a (List.mem_cons_of_mem _ ha) hs

/-- First-occurrence deduplication is idempotent. -/
theorem dedupFirst_idem [DecidableEq α] (l : List α) :
    dedupFirst (dedupFirst l) = dedupFirst l :=
  dedupGo_eq_self _ [] (dedupGo_nodup l []) (by intro a _ h; simp at h)

/-- Decomposing a reassembled row recovers its key. -/
theorem rowKey_rebuildRow (k : (Option Nat × Option Nat) × Bool × Int × Int) :
    rowKey (rebuildRow k) = k := rfl

/-- Deduplication of a nonempty list keeps its head. -/
theorem dedupFirst_cons [DecidableEq α] (a : α) (l : List α) :
    dedupFirst (a :: l) = a :: dedupGo [a] l := by
  conv_lhs => unfold dedupFirst dedupGo
  rw [if_neg (List.not_mem_nil a)]

/-- A successful output of the Deduplicator is a fixed point of the
Deduplicator. -/
theorem remove_duplicates_fix (grams out : List DRow)
    (h : remove_duplicates grams = some out) : remove_duplicates out = some out := by
  unfold remove_duplicates at h
  split at h
  · exact absurd h (by simp)
  case isFalse hne =>
    split at h
    case isFalse => exact absurd h (by simp)
    case isTrue hcond =>
      have hout := (Option.some.inj h).symm
      obtain ⟨g, gs, rfl⟩ : ∃ g gs, grams = g :: gs := by
        cases grams with
        | nil => exact absurd rfl hne
        | cons g gs => exact ⟨g, gs, rfl⟩
      have hdk : dedupFirst ((g :: gs).map rowKey)
          = rowKey g :: dedupGo [rowKey g] (gs.map rowKey) := by
        rw [List.map_cons, dedupFirst_cons]
      have houtc : out
          = rebuildRow (rowKey g) :: (dedupGo [rowKey g] (gs.map rowKey)).map rebuildRow := by
        rw [hout, hdk, List.map_cons]
      have hall : (out.all fun r => decide (r.1.length ≤ 2)) = true := by
        apply List.all_eq_true.mpr
        intro r hr
        rw [hout] at hr
        rcases List.mem_map.mp hr with ⟨kk, _, rfl⟩
        simp [rebuildRow]
      have hany : (out.any fun r => r.1.length == 2) = true := by
        apply List.any_eq_true.mpr
        refine ⟨rebuildRow (rowKey g), ?_, by simp [rebuildRow]⟩
        rw [houtc]
        exact List.mem_cons_self _ _
      unfold remove_duplicates
      rw [if_neg (by rw [houtc]; simp)]
      rw [if_pos (by rw [hall, hany]; rfl)]
      rw [hout, List.map_map]
      have hcomp : (rowKey ∘ rebuildRow) = id := funext fun k => rowKey_rebuildRow k
      rw [hcomp, List.map_id, dedupFirst_idem]

/-- C5: the Deduplicator is idempotent — running it on its own output
reproduces that output exactly (and a failing run stays failing), for every
input sequence of word-pair rows. -/
theorem C5_dedup_idempotent (grams : List DRow) :
    (remove_duplicates grams).bind remove_duplicates = remove_duplicates grams := by
  cases h : remove_duplicates grams with
  | none => rfl
  | some out => simpa using remove_duplicates_fix grams out h

/-- C6: the Window Calculator returns `seq_length = offset - onset`,
`begin_window = onset + start_offset`, `end_window = offset + end_offset`,
and `bin_size = ceil((end_window - begin_window) / bin_fs)` (`ceilIntDiv` is
that ceiling: for positive `bin_fs` its result is the least integer whose
product with `bin_fs` reaches the dividend); in particular onset 100,
offset 140, start_offset -20, end_offset 20, bin_fs 10 yields
`(40, 80, 160, 8)`. -/
theorem C6_window_params :
    (∀ (gram : Utt) (p : WParams),
      calculate_windows_params gram p =
        (gram.2.2.2 - gram.2.2.1, gram.2.2.1 + p.start_offset, gram.2.2.2 + p.end_offset,
         ceilIntDiv (gram.2.2.2 + p.end_offset - (gram.2.2.1 + p.start_offset)) p.bin_fs)) ∧
    (∀ a b : Int, 0 < b → a ≤ b * ceilIntDiv a b ∧ b * ceilIntDiv a b < a + b) ∧
    calculate_windows_params ([5, 6], true, 100, 140) ⟨-20, 20, 10⟩ = (40, 80, 160, 8) := by
  refine ⟨fun _ _ => rfl, ?_, by decide⟩
  intro a b hb
  unfold ceilIntDiv
  rw [Int.fdiv_eq_ediv _ (le_of_lt hb)]
  have h1 := Int.ediv_add_emod (-a) b
  have h2 := Int.emod_nonneg (-a) (ne_of_gt hb)
  have h3 := Int.emod_lt_of_pos (-a) hb
  constructor
  · nlinarith
  · nlinarith

/-- Witness for C6: the ceiling characterisation at the claim's concrete bin
computation, 80 frames at 10 per bin. -/
theorem C6_window_params_witness :
    (80 : Int) ≤ 10 * ceilIntDiv 80 10 ∧ 10 * ceilIntDiv 80 10 < 80 + 10 :=
  C6_window_params.2.1 80 10 (by decide)

/-- C7 counterexample: a dataset with one retained example returns that
example at index `-1`, which lies outside `[0, count)` — Python's negative
indexing wraps instead of failing, so the claim as stated is false. -/
theorem C7_counterexample :
    datasetLen [[0]] [[1, 2, 3, 4]] = 1 ∧
    getitem [[0]] [[1, 2, 3, 4]] (-1) = some ([0], [1, 2, 3, 4]) ∧ (-1 : Int) < 0 := by decide

/-- C7 (amended): indexed read access fails with a bounds error exactly when
the index lies outside `[-count, count)`; indices in `[-count, 0)` succeed by
Python's negative-index wrapping. -/
theorem C7_getitem_bounds (signals : List (List Int)) (labels : List (List Nat)) (idx : Int) :
    getitem signals labels idx = none ↔
      (idx < -(datasetLen signals labels : Int) ∨ (datasetLen signals labels : Int) ≤ idx) := by
  simp only [getitem]
  have hlen : (datasetExamples signals labels).length = datasetLen signals labels := rfl
  split_ifs <;>
    first
      | (rw [List.get?_eq_none, hlen]; omega)
      | (exact iff_of_true rfl (by omega))

/-- C8: for equal-length signal and label sequences, construction retains
exactly the index triples with segment length at most 384 and label length
between 4 and 128, the retained triples are sorted ascending by
(segment length, label length, original index), and the dataset's count is
the number of positions passing the bounds. -/
theorem C8_dataset_retention (signals : List (List Int)) (labels : List (List Nat))
    (hlen : signals.length = labels.length) :
    (∀ i : Nat,
      ((i, (signals.getD i []).length, (labels.getD i []).length) ∈ retainedIndices signals labels)
        ↔ (i < signals.length ∧ (signals.getD i []).length ≤ 384 ∧
           4 ≤ (labels.getD i []).length ∧ (labels.getD i []).length ≤ 128)) ∧
    List.Sorted idxLE (retainedIndices signals labels) ∧
    datasetLen signals labels
      = ((List.range signals.length).filter
          (fun i => passIdx (i, (signals.getD i []).length, (labels.getD i []).length))).length := by
  refine ⟨?_, ?_, ?_⟩
  · intro i
    unfold retainedIndices sortIndices
    rw [List.mem_filter, List.mem_insertionSort]
    unfold mkIndices
    rw [List.mem_map]
    constructor
    · rintro ⟨⟨j, hj, heq⟩, hp⟩
      simp only [Prod.mk.injEq] at heq
      obtain ⟨rfl, -⟩ := heq
      rw [List.mem_range] at hj
      refine ⟨hj, ?_⟩
      unfold passIdx at hp
      simp only [Bool.not_eq_true', Bool.or_eq_false_iff, decide_eq_false_iff_not] at hp
      omega
    · rintro ⟨hi, hb⟩
      refine ⟨⟨i, List.mem_range.mpr hi, rfl⟩, ?_⟩
      unfold passIdx
      simp only [Bool.not_eq_true', Bool.or_eq_false_iff, decide_eq_false_iff_not]
      omega
  · exact List.Pairwise.filter passIdx (List.sorted_insertionSort idxLE _)
  · unfold datasetLen datasetExamples retainedIndices sortIndices
    rw [List.length_map]
    have hperm := (List.perm_insertionSort idxLE (mkIndices signals labels)).filter passIdx
    rw [hperm.length_eq]
    unfold mkIndices
    rw [List.filter_map, List.length_map]
    rfl

/-- Witness for C8: a concrete two-example dataset in which index 0 (segment
length 1, label length 4) is retained, and the retained triples are sorted. -/
theorem C8_dataset_retention_witness :
    ((0, 1, 4) ∈ retainedIndices [[0], [0, 0]] [[1, 2, 3, 4], [1, 2, 3, 4, 5]]) ∧
    List.Sorted idxLE (retainedIndices [[0], [0, 0]] [[1, 2, 3, 4], [1, 2, 3, 4, 5]]) :=
  ⟨((C8_dataset_retention [[0], [0, 0]] [[1, 2, 3, 4], [1, 2, 3, 4, 5]] rfl).1 0).mpr (by decide),
   (C8_dataset_retention [[0], [0, 0]] [[1, 2, 3, 4], [1, 2, 3, 4, 5]] rfl).2.1⟩

/-- C9: the padding mask is true at exactly the positions where the shifted
padded labels equal the pad-token id, and a batch with label lengths 3 and 5
(pad id 0, no real token 0) has a mask that is true only in the 2 trailing
positions of the shorter row. -/
theorem C9_pad_mask :
    (∀ (pad : Nat) (rows : List (List Nat)) (i j : Nat),
      ((pad_mask pad rows).get? i).bind (fun r => r.get? j) = some true ↔
      ((trg_y pad rows).get? i).bind (fun r => r.get? j) = some pad) ∧
    pad_mask 0 [[1, 2, 3], [4, 5, 6, 7, 8]]
      = [[false, false, true, true], [false, false, false, false]] := by
  constructor
  · intro pad rows i j
    unfold pad_mask
    rw [List.get?_map]
    cases hi : (trg_y pad rows).get? i with
    | none => simp
    | some r =>
      simp only [Option.map_some', Option.some_bind]
      rw [List.get?_map]
      cases hj : r.get? j with
      | none => simp
      | some t => simp
  · decide
